import Mathlib

/-!
Verification of the dos-actors core against its specification.

The Rust sources embedded here:
* `src/src/actor.rs` : the `Actor::run` tick loop (decimation / upsampling /
  initiator / terminator branches) and `Actor::bootstrap`.
* `src/src/io/output.rs` : `Output::send` (client `write`, fan-out, error
  conversion) over the flume channel model.
* `src/src/lib.rs` : `ActorError` and the `ActorOutputBuilder` fluent API
  (`unbounded`, `multiplex`, `build`).
* `src/src/clients/mod.rs` : the `Logging`, `Sampler` and `Integrator` clients.
* `src/examples/simple-feedback.rs` : the `Compensator` and the feedback loop.

Machine integers are modelled as `Nat`; the scenario arithmetic on `f64`
stays within small dyadic rationals on which every Rust operation is exact,
so it is modelled over `ℚ`.
-/

namespace DosActors

/-- Errors of the actor runtime as used by `src/src/actor.rs`
(`ActorError` of the crate version `actor.rs` belongs to; the variants
carry no payload there, cf. `Err(ActorError::Disconnected)` at line 130). -/
inductive RunError
  | dropRecv
  | dropSend
  | disconnected
  | noInputs
  | noOutputs
  deriving DecidableEq, Repr

deriving instance DecidableEq for Except

/-- A client as driven by `Actor::run`: the `Client` trait surface
`consume`, `update`, `produce` (all take `&mut self`; `produce` returns
`Option<Vec<S<O>>>`, so it returns the optional output vector together
with the successor state). The collected input batch (`Vec<S<I>>` joined
from all inputs of one tick) is abstracted as a value of type `ι`;
one produced output vector as `List ω`. -/
structure Client (σ ι ω : Type) where
  consume : σ → ι → σ
  update : σ → σ
  produce : σ → Option (List ω) × σ

/-- `Actor::collect` (actor.rs 90-110): the join of all input `recv`s.
The upstream traffic of one actor is a finite stream `List ι` of batches;
once the senders are dropped the joined `recv` fails with `DropRecv`. -/
def collect {ι : Type} (ins : List ι) : Except RunError (ι × List ι) :=
  match ins with
  | [] => Except.error RunError.dropRecv
  | i :: rest => Except.ok (i, rest)

/-- `Actor::distribute` (actor.rs 112-132): `Some data` is fanned out to the
outputs and the sent vector is reported, `None` disconnects the outputs and
fails with `Disconnected`. -/
def distribute {ω : Type} (data : Option (List ω)) : Except RunError (List ω) :=
  match data with
  | some d => Except.ok d
  | none => Except.error RunError.disconnected

/-- The inner `for _ in 0..NO / NI` loop of the decimation branch of
`Actor::run` (actor.rs 143-145): `k` times
`client.consume(self.collect().await?).update()`. -/
def decimateReads {σ ι ω : Type} (c : Client σ ι ω) :
    ℕ → σ → List ι → Except RunError (σ × List ι)
  | 0, s, ins => Except.ok (s, ins)
  | n + 1, s, ins =>
    match collect ins with
    | Except.error e => Except.error e
    | Except.ok (i, rest) => decimateReads c n (c.update (c.consume s i)) rest

/-- One pass of the decimation loop of `Actor::run` (actor.rs 142-147):
the inner read loop followed by `self.distribute(client.produce())`. -/
def decimatePass {σ ι ω : Type} (c : Client σ ι ω) (k : ℕ) (s : σ) (ins : List ι) :
    Except RunError (σ × List ι × List ω) :=
  match decimateReads c k s ins with
  | Except.error e => Except.error e
  | Except.ok (s1, rest) =>
    let p := c.produce s1
    match distribute p.1 with
    | Except.error e => Except.error e
    | Except.ok sent => Except.ok (p.2, rest, sent)

/-- The state advance of one collect/consume/update repetition. -/
def advance {σ ι ω : Type} (c : Client σ ι ω) (s : σ) (i : ι) : σ :=
  c.update (c.consume s i)

theorem decimateReads_eq {σ ι ω : Type} (c : Client σ ι ω) :
    ∀ (k : ℕ) (s : σ) (ins : List ι), k ≤ ins.length →
      decimateReads c k s ins =
        Except.ok ((ins.take k).foldl (advance c) s, ins.drop k) := by
  intro k
  induction k with
  | zero => intro s ins _; rfl
  | succ n ih =>
    intro s ins hlen
    match ins with
    | [] => exact absurd hlen (by simp)
    | i :: rest =>
      simp only [decimateReads, collect, List.take, List.drop, List.foldl]
      exact ih (advance c s i) rest (Nat.le_of_succ_le_succ hlen)

/-- The `for _ in 0..NI / NO` loop of the upsampling branch of `Actor::run`
(actor.rs 152-154): `k` times `self.distribute(client.produce()).await?`,
each iteration pulling `produce` anew on the current client state. -/
def upsampleWrites {σ ι ω : Type} (c : Client σ ι ω) :
    ℕ → σ → Except RunError (σ × List (List ω))
  | 0, s => Except.ok (s, [])
  | n + 1, s =>
    let p := c.produce s
    match distribute p.1 with
    | Except.error e => Except.error e
    | Except.ok sent =>
      match upsampleWrites c n p.2 with
      | Except.error e => Except.error e
      | Except.ok (s2, rest) => Except.ok (s2, sent :: rest)

/-- One pass of the upsampling loop of `Actor::run` (actor.rs 150-155):
`client.consume(self.collect().await?).update()` once, then the write loop. -/
def upsamplePass {σ ι ω : Type} (c : Client σ ι ω) (k : ℕ) (s : σ) (ins : List ι) :
    Except RunError (σ × List ι × List (List ω)) :=
  match collect ins with
  | Except.error e => Except.error e
  | Except.ok (i, rest) =>
    match upsampleWrites c k (advance c s i) with
    | Except.error e => Except.error e
    | Except.ok (s2, sents) => Except.ok (s2, rest, sents)

/-- The full upsampling loop run on a finite input stream: passes repeat
until `collect` fails with `DropRecv` (stream exhausted) or a `distribute`
fails. Returns the vectors sent in the completed passes and the error
`Actor::run` returns with. -/
def upsampleRun {σ ι ω : Type} (c : Client σ ι ω) (k : ℕ) :
    σ → List ι → List (List ω) × RunError
  | _, [] => ([], RunError.dropRecv)
  | s, i :: ins =>
    match upsampleWrites c k (advance c s i) with
    | Except.error e => ([], e)
    | Except.ok (s2, sents) =>
      let r := upsampleRun c k s2 ins
      (sents ++ r.1, r.2)

/-- `k` successive pulls of `produce`, recording each pulled vector
(`[]` standing in for a `None` pull, which cannot occur for the clients
quantified in the theorems below). -/
def producePulls {σ ι ω : Type} (c : Client σ ι ω) : ℕ → σ → σ × List (List ω)
  | 0, s => (s, [])
  | n + 1, s =>
    let p := c.produce s
    let r := producePulls c n p.2
    (r.1, p.1.getD [] :: r.2)

/-- The `Sampler` client of src/clients/mod.rs 174-198 as a state machine:
`read` stores the incoming envelope, `update` does nothing, `write` returns
a copy of the last value read (a `Some`, always). The sampler actor has one
input and one output, so a batch is one value and a written vector is a
singleton. -/
def samplerClient (α : Type) : Client α α α where
  consume := fun _ i => i
  update := fun s => s
  produce := fun s => (some [s], s)

theorem producePulls_length {σ ι ω : Type} (c : Client σ ι ω) :
    ∀ (k : ℕ) (s : σ), (producePulls c k s).2.length = k := by
  intro k
  induction k with
  | zero => intro s; rfl
  | succ n ih => intro s; simp [producePulls, ih]

theorem upsampleWrites_eq {σ ι ω : Type} (c : Client σ ι ω)
    (hp : ∀ t : σ, (c.produce t).1.isSome = true) :
    ∀ (k : ℕ) (s : σ),
      upsampleWrites c k s = Except.ok (producePulls c k s) := by
  intro k
  induction k with
  | zero => intro s; rfl
  | succ n ih =>
    intro s
    have h := hp s
    match hps : (c.produce s).1 with
    | none => rw [hps] at h; simp at h
    | some d =>
      simp only [upsampleWrites, producePulls, hps, distribute, ih, Option.getD]

/-- C1: for every transform actor (some inputs and some outputs) with
NO ≥ NI, each pass of the `Actor::run` loop performs exactly NO/NI
repetitions of { collect all inputs; pass the collected data to the
client's consume; call update } — advancing the client state by exactly
the fold of `advance` over the first NO/NI input batches and taking
exactly NO/NI batches off the stream — and then exactly one distribute
of the client's produced outputs. -/
theorem actor_run_decimation_pass {σ ι ω : Type} (c : Client σ ι ω)
    (NI NO : ℕ) (_hNI : 1 ≤ NI) (_hle : NI ≤ NO)
    (s : σ) (ins : List ι) (hlen : NO / NI ≤ ins.length)
    (d : List ω) (s2 : σ)
    (hp : c.produce ((ins.take (NO / NI)).foldl (advance c) s) = (some d, s2)) :
    decimatePass c (NO / NI) s ins =
      Except.ok (s2, ins.drop (NO / NI), d) := by
  simp only [decimatePass, decimateReads_eq c (NO / NI) s ins hlen, hp, distribute]

/-- Concrete instance of C1: NI = 1, NO = 2, a client that sums inputs and
doubles on update, fed the stream [1, 2, 3]; the pass advances the state
twice (0 → 2 → 8), eats two batches and distributes once. -/
def cW : Client ℕ ℕ ℕ where
  consume := fun s i => s + i
  update := fun s => 2 * s
  produce := fun s => (some [s], s + 1)

theorem actor_run_decimation_pass_witness :
    decimatePass cW (2 / 1) 0 [1, 2, 3] = Except.ok (9, [3], [8]) :=
  actor_run_decimation_pass cW 1 2 (by decide) (by decide) 0 [1, 2, 3]
    (by decide) [8] 9 (by decide)

/-- C2: for every transform actor with NI > NO, each pass of the
`Actor::run` loop performs one collect/consume/update and then exactly
NI/NO distributes, each pulling the client's produce anew (the sent
vectors are the NI/NO successive produce pulls); in particular, for an
actor with NI = 2, NO = 1 holding the `Sampler` client (whose write
returns a copy of the last value read), the input sequence [a, b, e]
yields the output sequence [a, a, b, b, e, e] (zero-order hold). -/
theorem actor_run_upsampling_sampler :
    (∀ (σ ι ω : Type) (c : Client σ ι ω) (NI NO : ℕ),
      1 ≤ NO → NO < NI →
      (∀ t : σ, (c.produce t).1.isSome = true) →
      ∀ (s : σ) (i : ι) (ins : List ι),
        upsamplePass c (NI / NO) s (i :: ins) =
          Except.ok ((producePulls c (NI / NO) (advance c s i)).1, ins,
            (producePulls c (NI / NO) (advance c s i)).2)
        ∧ (producePulls c (NI / NO) (advance c s i)).2.length = NI / NO)
    ∧ ∀ (α : Type) (d a b e : α),
        upsampleRun (samplerClient α) 2 d [a, b, e] =
          ([[a], [a], [b], [b], [e], [e]], RunError.dropRecv)
        ∧ (upsampleRun (samplerClient α) 2 d [a, b, e]).1.flatten =
            [a, a, b, b, e, e] := by
  constructor
  · intro σ ι ω c NI NO _ _ hp s i ins
    refine ⟨?_, producePulls_length c _ _⟩
    simp only [upsamplePass, collect, upsampleWrites_eq c hp]
  · intro α d a b e
    exact ⟨rfl, rfl⟩

theorem actor_run_upsampling_sampler_witness :
    (upsamplePass (samplerClient ℕ) (2 / 1) 0 [5, 7] =
        Except.ok
          ((producePulls (samplerClient ℕ) (2 / 1)
              (advance (samplerClient ℕ) 0 5)).1,
            [7],
            (producePulls (samplerClient ℕ) (2 / 1)
              (advance (samplerClient ℕ) 0 5)).2)
      ∧ (producePulls (samplerClient ℕ) (2 / 1)
          (advance (samplerClient ℕ) 0 5)).2.length = 2 / 1)
    ∧ upsampleRun (samplerClient ℕ) 2 0 [1, 2, 3] =
        ([[1], [1], [2], [2], [3], [3]], RunError.dropRecv) :=
  ⟨actor_run_upsampling_sampler.1 ℕ ℕ ℕ (samplerClient ℕ) 2 1 (by decide)
      (by decide) (fun _ => rfl) 0 5 [7],
    (actor_run_upsampling_sampler.2 ℕ 0 1 2 3).1⟩

/-- The terminator branch of `Actor::run` (actor.rs 162-170): loop
{ collect; on Ok consume and update; on Err break with that error }.
On a finite input stream the loop always ends with
`break Err(e)` once the stream is exhausted; the pair returned is the
final client state and the `Result` value `Actor::run` returns. -/
def terminatorRun {σ ι ω : Type} (c : Client σ ι ω) :
    σ → List ι → σ × Except RunError Unit
  | s, [] => (s, Except.error RunError.dropRecv)
  | s, i :: ins => terminatorRun c (advance c s i) ins

/-- The initiator branch of `Actor::run` (actor.rs 158-161): loop
{ distribute(client.update().produce())? }. `fuel` bounds the number of
iterations; the third component is the `Result` `Actor::run` returns with
(`none` while the loop is still running). -/
def initiatorRun {σ ι ω : Type} (c : Client σ ι ω) :
    ℕ → σ → List (List ω) × σ × Option (Except RunError Unit)
  | 0, s => ([], s, none)
  | n + 1, s =>
    let s1 := c.update s
    let p := c.produce s1
    match distribute p.1 with
    | Except.error e => ([], p.2, some (Except.error e))
    | Except.ok sent =>
      let r := initiatorRun c n p.2
      (sent :: r.1, r.2.1, r.2.2)

/-- A terminator client for the C4 counterexample: sums what it consumes. -/
def cT : Client ℕ ℕ ℕ where
  consume := fun s i => s + i
  update := fun s => s
  produce := fun s => (none, s)

/-- C4 counterexample: the claim says `Actor::run` returns Ok on orderly
end-of-stream; at the concrete inputs below the terminator branch returns
`Err(DropRecv)` when `recv` fails with DropRecv, and the initiator branch
returns `Err(Disconnected)` when produce returns None — neither is Ok. -/
theorem actor_run_end_of_stream_counterexample :
    (terminatorRun cT 0 [5]).2 = Except.error RunError.dropRecv
    ∧ (terminatorRun cT 0 [5]).2 ≠ Except.ok ()
    ∧ (initiatorRun cT 3 0).2.2 = some (Except.error RunError.disconnected)
    ∧ (initiatorRun cT 3 0).2.2 ≠ some (Except.ok ()) := by
  refine ⟨rfl, by decide, rfl, by decide⟩

/-- C4 amended: orderly end-of-stream exits the actor loop, but with the
corresponding error rather than Ok: for every terminator actor,
`Actor::run` returns `Err(DropRecv)` once the input stream is exhausted
(after consuming every batch); for every initiator actor, `Actor::run`
returns `Err(Disconnected)` as soon as the client's produce returns None.
Treating these as success is left to the caller. -/
theorem actor_run_end_of_stream {σ ι ω σ2 ι2 : Type}
    (c : Client σ ι ω) (s : σ) (ins : List ι)
    (c2 : Client σ2 ι2 ω) (s2 : σ2) (n : ℕ)
    (hp : (c2.produce (c2.update s2)).1 = none) :
    terminatorRun c s ins =
      (ins.foldl (advance c) s, Except.error RunError.dropRecv)
    ∧ (initiatorRun c2 (n + 1) s2).1 = []
    ∧ (initiatorRun c2 (n + 1) s2).2.2 =
        some (Except.error RunError.disconnected) := by
  refine ⟨?_, ?_, ?_⟩
  · induction ins generalizing s with
    | nil => rfl
    | cons i rest ih => simpa [terminatorRun] using ih (advance c s i)
  · simp [initiatorRun, hp, distribute]
  · simp [initiatorRun, hp, distribute]

theorem actor_run_end_of_stream_witness :
    terminatorRun cT 0 [1, 2] = (3, Except.error RunError.dropRecv)
    ∧ (initiatorRun cT 1 0).1 = []
    ∧ (initiatorRun cT 1 0).2.2 =
        some (Except.error RunError.disconnected) :=
  actor_run_end_of_stream cT 0 [1, 2] cT 0 0 (by decide)

/-- The `for _ in 0..NI / NO` loop of `Actor::bootstrap` (actor.rs 186-188):
each iteration distributes a clone of the same initial data. Returns the
sequence of sent vectors. -/
def bootstrapLoop {ω : Type} (data : Option (List ω)) :
    ℕ → Except RunError (List (List ω))
  | 0 => Except.ok []
  | n + 1 =>
    match distribute data with
    | Except.error e => Except.error e
    | Except.ok sent =>
      match bootstrapLoop data n with
      | Except.error e => Except.error e
      | Except.ok rest => Except.ok (sent :: rest)

/-- `Actor::bootstrap` (actor.rs 182-190): one distribute when NO ≥ NI,
otherwise the NI/NO-fold distribute loop. -/
def bootstrap {ω : Type} (NI NO : ℕ) (data : Option (List ω)) :
    Except RunError (List (List ω)) :=
  if NI ≤ NO then
    match distribute data with
    | Except.error e => Except.error e
    | Except.ok sent => Except.ok [sent]
  else
    bootstrapLoop data (NI / NO)

theorem bootstrapLoop_some {ω : Type} (d : List ω) :
    ∀ n : ℕ, bootstrapLoop (some d) n = Except.ok (List.replicate n d) := by
  intro n
  induction n with
  | zero => rfl
  | succ m ih => simp [bootstrapLoop, distribute, ih, List.replicate]

/-- C5: for every actor with a bootstrapped output (so NO ≥ 1), the
bootstrap prologue sends the initial envelope exactly NI/NO times when
NI > NO (upsampling) and exactly once otherwise (NO ≥ NI). -/
theorem actor_bootstrap_count {ω : Type} (NI NO : ℕ) (_hNO : 1 ≤ NO)
    (d : List ω) :
    bootstrap NI NO (some d) =
      Except.ok (List.replicate (if NI ≤ NO then 1 else NI / NO) d) := by
  by_cases h : NI ≤ NO
  · simp [bootstrap, distribute, h, List.replicate]
  · simp [bootstrap, h, bootstrapLoop_some]

theorem actor_bootstrap_count_witness :
    bootstrap 4 3 (some [(1 : ℕ)]) = Except.ok [[1]] :=
  actor_bootstrap_count 4 3 (by decide) [1]

/-- The `ActorError` taxonomy of src/src/lib.rs 90-114 (the variants the
output layer can produce). `DropSend` arises from
`#[from] flume::SendError<()>`, `Disconnected` carries the output name. -/
inductive ActorError
  | dropRecv
  | dropSend
  | noData
  | disconnected (who : String)
  deriving DecidableEq, Repr

/-- One flume channel as seen from one `Output` sender and its unique
receiver: the FIFO of envelopes already accepted, the number of live
`Sender` clones, and whether the receiver is still alive. flume:
`send_async` fails (`SendError`) exactly when the receiver is gone;
`recv_async` on an empty queue fails (`RecvError`, i.e. `DropRecv`)
exactly when no live sender remains, and suspends otherwise. -/
structure Chan (ε : Type) where
  queue : List ε
  senders : ℕ
  receiverAlive : Bool
  deriving DecidableEq, Repr, Inhabited

/-- `Rx.recv` on one channel: `some (ok ...)` pops the FIFO head,
`some (error DropRecv)` reports end-of-stream, `none` means the receiver
suspends (no data yet, producer still alive). -/
def chanRecv {ε : Type} (ch : Chan ε) : Option (Except ActorError (ε × Chan ε)) :=
  match ch.queue with
  | e :: rest => some (Except.ok (e, { ch with queue := rest }))
  | [] =>
    if ch.senders = 0 then some (Except.error ActorError.dropRecv) else none

/-- The channels held by one `Output` of src/src/io/output.rs (field `tx`:
one `Sender` per consumer). -/
structure OutputChans (ε : Type) where
  chans : List (Chan ε)
  deriving DecidableEq, Repr

/-- `Output::send` of src/src/io/output.rs 80-102, for a client whose
`write()` returned `w`.
* `Some(data)`: fan the envelope out, `tx.send_async(data.clone())` for
  every sender, `join_all`, and collect: every live channel enqueues its
  clone; if any receiver is gone the collected error is mapped to
  `flume::SendError(())` and converted by `?` through
  `#[from] flume::SendError<()>` into `ActorError::DropSend`.
* `None`: run `for tx in &self.tx { drop(tx); }` — `tx` is a `&Sender`,
  and dropping a shared reference drops nothing, so every sender stays
  alive and the channel state is unchanged — then return
  `Err(ActorError::Disconnected(who))`. -/
def outputSend {ε : Type} (who : String) (o : OutputChans ε) (w : Option ε) :
    OutputChans ε × Except ActorError Unit :=
  match w with
  | some d =>
    let o2 : OutputChans ε :=
      { chans := o.chans.map fun ch =>
          if ch.receiverAlive then { ch with queue := ch.queue ++ [d] } else ch }
    if o.chans.all (fun ch => ch.receiverAlive) then (o2, Except.ok ())
    else (o2, Except.error ActorError.dropSend)
  | none => (o, Except.error (ActorError.disconnected who))

/-- `Output::disconnect` of src/src/io.rs 105-108:
`self.tx.iter_mut().for_each(drop)` — dropping the `&mut Sender`
references drops no sender, so the state is unchanged. -/
def outputDisconnect {ε : Type} (o : OutputChans ε) : OutputChans ε :=
  o

/-- A concrete failing input for C3: one consumer, its channel empty, one
live sender, receiver alive, and the owning client's `write()` about to
return `None`. -/
def oC3 : OutputChans ℕ :=
  { chans := [{ queue := [], senders := 1, receiverAlive := true }] }

/-- C3, evaluated at the failing input: when `write()` returns `None`,
`Output::send` does return the `Disconnected` error naming the output,
but it does not disconnect any sender — `drop(tx)` on the `&Sender`
reference is a no-op — so the downstream consumer's subsequent `recv`
suspends instead of observing end-of-stream (`DropRecv`); likewise
`Output::disconnect` leaves every sender alive. -/
theorem output_send_none_keeps_senders :
    outputSend "out" oC3 none = (oC3, Except.error (ActorError.disconnected "out"))
    ∧ (outputSend "out" oC3 none).1.chans.headI.senders = 1
    ∧ chanRecv (outputSend "out" oC3 none).1.chans.headI ≠
        some (Except.error ActorError.dropRecv)
    ∧ chanRecv (outputSend "out" oC3 none).1.chans.headI = none
    ∧ outputDisconnect oC3 = oC3 := by
  refine ⟨rfl, rfl, by decide, rfl, rfl⟩

/-- A sequence of sends through one output: fold of `outputSend` over the
successively written envelopes (all of them `Some`). -/
def sendSeq {ε : Type} (who : String) (o : OutputChans ε) (es : List ε) :
    OutputChans ε :=
  es.foldl (fun acc e => (outputSend who acc (some e)).1) o

/-- Fresh fan-out state: `M` channels as minted by `channels`
(src/src/io.rs 129-138) — empty queue, the output's sender, receiver
alive. -/
def freshChans (ε : Type) (M : ℕ) : OutputChans ε :=
  { chans := List.replicate M { queue := [], senders := 1, receiverAlive := true } }

theorem sendSeq_queues {ε : Type} (who : String) (M : ℕ) (es : List ε) :
    (sendSeq who (freshChans ε M) es).chans =
      List.replicate M { queue := es, senders := 1, receiverAlive := true } := by
  suffices h :
      ∀ (es : List ε) (q : List ε),
        (sendSeq who
            { chans :=
                List.replicate M { queue := q, senders := 1, receiverAlive := true } }
            es).chans =
          List.replicate M
            { queue := q ++ es, senders := 1, receiverAlive := true } by
    simpa using h es []
  intro es
  induction es with
  | nil => intro q; simp [sendSeq]
  | cons e rest ih =>
    intro q
    have step :
        (outputSend who
            { chans :=
                List.replicate M { queue := q, senders := 1, receiverAlive := true } }
            (some e)).1 =
          { chans :=
              List.replicate M
                { queue := q ++ [e], senders := 1, receiverAlive := true } } := by
      simp [outputSend, List.all_eq_true, List.map_replicate]
    have hrest := ih (q ++ [e])
    simp only [sendSeq, List.foldl] at hrest ⊢
    rw [step, hrest, List.append_assoc]
    rfl

/-- C6: for every output multiplexed to M consumers and every sequence of
successful sends, each of the M consumers receives the same sequence of
envelopes in the same order: after fanning out the envelopes `es`, every
one of the M per-consumer FIFO queues holds exactly `es`. -/
theorem fanout_equality {ε : Type} (who : String) (M : ℕ) (es : List ε)
    (j : ℕ) (hj : j < M) :
    ((sendSeq who (freshChans ε M) es).chans.map (fun ch => ch.queue)).getD j []
      = es := by
  rw [sendSeq_queues, List.map_replicate,
    List.getD_eq_getElem _ _ (by simpa using hj), List.getElem_replicate]

theorem fanout_equality_witness :
    ((sendSeq "out" (freshChans ℕ 3) [1, 2]).chans.map (fun ch => ch.queue)).getD
        1 [] = [1, 2] :=
  fanout_equality "out" 3 [1, 2] 1 (by decide)

/-- A concrete input for C7: one sender whose (unique) receiver has been
dropped, queue empty. -/
def oC7 : OutputChans ℕ :=
  { chans := [{ queue := [], senders := 1, receiverAlive := false }] }

/-- C7 counterexample: sending an envelope through a sender whose
receivers have all been dropped fails, but with the `DropSend` variant
(the `?` conversion of `flume::SendError<()>`), not with the
`Disconnected` variant the claim names. -/
theorem send_receivers_dropped_counterexample :
    (outputSend "out" oC7 (some 42)).2 = Except.error ActorError.dropSend
    ∧ (outputSend "out" oC7 (some 42)).2 ≠
        Except.error (ActorError.disconnected "out") := by
  refine ⟨rfl, by decide⟩

/-- C7 amended: for every output with at least one consumer, all of whose
receivers have been dropped, sending an envelope fails with the
`DropSend` error (`flume::SendError` converted by `?`), and with no other
variant; `Disconnected` is reserved for the client's `write()` returning
`None`. -/
theorem send_receivers_dropped {ε : Type} (who : String) (o : OutputChans ε)
    (d : ε) (hne : o.chans ≠ [])
    (h : ∀ ch ∈ o.chans, ch.receiverAlive = false) :
    (outputSend who o (some d)).2 = Except.error ActorError.dropSend := by
  have hall : o.chans.all (fun ch => ch.receiverAlive) = false := by
    match hc : o.chans with
    | [] => exact absurd hc hne
    | ch :: rest =>
      have := h ch (by rw [hc]; exact List.mem_cons_self ch rest)
      simp [List.all_cons, this]
  simp [outputSend, hall]

theorem send_receivers_dropped_witness :
    (outputSend "out" oC7 (some 7)).2 = Except.error ActorError.dropSend :=
  send_receivers_dropped "out" oC7 7 (by decide) (by decide)

/-- `usize::MAX`, the sentinel `unbounded` stores in the capacity vector
(src/src/lib.rs 202). -/
def usizeMAX : ℕ := 2 ^ 64 - 1

/-- `ActorOutputBuilder` of src/src/lib.rs 147-167. -/
structure ActorOutputBuilder where
  capacity : List ℕ
  bootstrap : Bool
  deriving DecidableEq, Repr

/-- `ActorOutputBuilder::new(n)` (lib.rs 161-166): `n` channels of
capacity 1, no bootstrap. `add_output` starts from `new(1)`. -/
def builderNew (n : ℕ) : ActorOutputBuilder :=
  { capacity := List.replicate n 1, bootstrap := false }

/-- `AddOuput::unbounded` (lib.rs 197-206): replaces the capacity vector
by `vec![usize::MAX; n]` where `n` is its current length. -/
def builderUnbounded (b : ActorOutputBuilder) : ActorOutputBuilder :=
  { b with capacity := List.replicate b.capacity.length usizeMAX }

/-- `AddOuput::multiplex(n)` (lib.rs 216-224): replaces the capacity
vector by `vec![self.1.capacity[0]; n]` (the source indexes `capacity[0]`,
which exists on every builder reachable from `new`; `headI` falls back to
`0` on the empty vector where the source would panic). -/
def builderMultiplex (b : ActorOutputBuilder) (n : ℕ) : ActorOutputBuilder :=
  { b with capacity := List.replicate n b.capacity.headI }

/-- The kind of channel `AddOuput::build` mints per capacity entry
(lib.rs 240-248): `flume::unbounded()` when the entry is `usize::MAX`,
`flume::bounded(cap)` otherwise. -/
inductive ChanKind
  | unbounded
  | bounded (cap : ℕ)
  deriving DecidableEq, Repr

/-- The channels minted by `AddOuput::build` (lib.rs 236-248). -/
def builderBuild (b : ActorOutputBuilder) : List ChanKind :=
  b.capacity.map fun cap =>
    if cap = usizeMAX then ChanKind.unbounded else ChanKind.bounded cap

/-- C9: starting from the builder's single initial channel of capacity 1,
`unbounded` and `multiplex(n)` commute: both orders yield the capacity
vector of `n` copies of `usize::MAX`, and in both orders `build` mints
`n` unbounded channels. -/
theorem unbounded_multiplex_commute (n : ℕ) :
    builderMultiplex (builderUnbounded (builderNew 1)) n =
      builderUnbounded (builderMultiplex (builderNew 1) n)
    ∧ (builderMultiplex (builderUnbounded (builderNew 1)) n).capacity =
        List.replicate n usizeMAX
    ∧ builderBuild (builderMultiplex (builderUnbounded (builderNew 1)) n) =
        List.replicate n ChanKind.unbounded
    ∧ builderBuild (builderUnbounded (builderMultiplex (builderNew 1) n)) =
        List.replicate n ChanKind.unbounded := by
  refine ⟨?_, ?_, ?_, ?_⟩ <;>
    simp [builderNew, builderUnbounded, builderMultiplex, builderBuild,
      List.map_replicate, List.headI]

/-- The `Logging` client of src/src/clients/mod.rs 94-172: the
accumulated samples, the number of `read` calls, and the configured
number of entries. -/
structure Logging (τ : Type) where
  data : List τ
  n_sample : ℕ
  n_entry : ℕ
  deriving DecidableEq, Repr

/-- `Logging::default()` (mod.rs 111-119): one entry, nothing read. -/
def loggingDefault (τ : Type) : Logging τ :=
  { data := [], n_sample := 0, n_entry := 1 }

/-- `Logging::read` (mod.rs 166-172): extend `data`, bump `n_sample`. -/
def Logging.read {τ : Type} (l : Logging τ) (data : List τ) : Logging τ :=
  { l with data := l.data ++ data, n_sample := l.n_sample + 1 }

/-- `Logging::len` (mod.rs 136-138): `n_sample / n_entry`
(integer division). -/
def Logging.len {τ : Type} (l : Logging τ) : ℕ :=
  l.n_sample / l.n_entry

/-- `Logging::n_data` (mod.rs 140-142): `data.len() / len()`; Rust
integer division panics when `len()` is zero, modelled as `none`. -/
def Logging.n_data {τ : Type} (l : Logging τ) : Option ℕ :=
  if l.len = 0 then none else some (l.data.length / l.len)

/-- `data.chunks(k)` for `Logging::chunks`; Rust `chunks` panics on a
zero chunk size. -/
def chunksOf {τ : Type} (k : ℕ) (l : List τ) : List (List τ) :=
  if h : l.isEmpty ∨ k = 0 then [] else
    l.take k :: chunksOf k (l.drop k)
termination_by l.length
decreasing_by
  push_neg at h
  have hk : 0 < k := Nat.pos_of_ne_zero h.2
  have hl : 0 < l.length := by
    cases l with
    | nil => simp at h
    | cons a as => simp
  simp only [List.length_drop]
  omega

/-- `Logging::chunks` (mod.rs 148-150): `data.chunks(n_data())`; it
panics (`none`) when `n_data` does, and also when `n_data` is zero. -/
def Logging.chunks {τ : Type} (l : Logging τ) : Option (List (List τ)) :=
  match l.n_data with
  | none => none
  | some k => if k = 0 then none else some (chunksOf k l.data)

/-- The `Display` impl of `Logging` (mod.rs 153-163): formats
`n_data`, `len` and `data.len()`; panics (`none`) when `n_data` does. -/
def Logging.display {τ : Type} (l : Logging τ) : Option String :=
  match l.n_data with
  | none => none
  | some k =>
    some ("Logging: (" ++ toString k ++ "x" ++ toString l.len ++ ")=" ++
      toString l.data.length)

/-- C10: for every `Logging` client that has read fewer samples than its
configured number of entries (for instance a freshly constructed logger),
`len()` returns 0, and `n_data()`, `chunks()` and the `Display` formatter
all divide by zero and panic; in particular `n_data`, the only accessor
for the per-entry data size, is not total on such loggers. -/
theorem logging_empty_panics {τ : Type} (l : Logging τ)
    (h : l.n_sample < l.n_entry) :
    l.len = 0 ∧ l.n_data = none ∧ l.chunks = none ∧ l.display = none := by
  have hlen : l.len = 0 := Nat.div_eq_of_lt h
  refine ⟨hlen, ?_, ?_, ?_⟩ <;>
    simp [Logging.n_data, Logging.chunks, Logging.display, hlen]

theorem logging_empty_panics_witness :
    (loggingDefault ℕ).len = 0 ∧ (loggingDefault ℕ).n_data = none
    ∧ (loggingDefault ℕ).chunks = none ∧ (loggingDefault ℕ).display = none :=
  logging_empty_panics (loggingDefault ℕ) (by decide)

/-- The library `Integrator` client of src/src/clients/mod.rs 219-290,
over exact rationals (the scenario stays within small dyadic values on
which every `f64` operation is exact). -/
structure Integrator where
  gain : List ℚ
  mem : List ℚ
  zero : List ℚ
  deriving DecidableEq, Repr

/-- The elementwise zip of `Integrator::read` (mod.rs 268-275):
`mem[i] -= gain[i] * (u[i] - zero[i])`; the iterator zip stops at the
shortest list, leaving the remaining `mem` entries unchanged. -/
def integReadZip : List ℚ → List ℚ → List ℚ → List ℚ → List ℚ
  | x :: xs, g :: gs, z :: zs, u :: us =>
    (x - g * (u - z)) :: integReadZip xs gs zs us
  | xs, _, _, _ => xs

/-- `Integrator::read` (mod.rs 264-276). -/
def Integrator.read (it : Integrator) (data : List ℚ) : Integrator :=
  { it with mem := integReadZip it.mem it.gain it.zero data }

/-- The elementwise zip of `Integrator::write` (mod.rs 281-289):
`y[i] = mem[i] + zero[i]`, length the shorter of the two. -/
def integWriteZip : List ℚ → List ℚ → List ℚ
  | m :: ms, z :: zs => (m + z) :: integWriteZip ms zs
  | _, _ => []

/-- `Integrator::write` (mod.rs 277-290): always `Some`. -/
def Integrator.write (it : Integrator) : Option (List ℚ) :=
  some (integWriteZip it.mem it.zero)

/-- `Integrator::new(1).gain(1/2)` with zero point 0 (mod.rs 230-246),
the integrator of the C8 scenario. -/
def integC8 : Integrator :=
  { gain := [1 / 2], mem := [0], zero := [0] }

/-- The C8 feedback loop, library `Integrator` version. All rates are 1
and every channel has capacity 1, so the network has the usual
deterministic dataflow semantics; the recurrence below computes the
per-tick value on every edge. Arguments: remaining ticks, the integrator
output the compensator receives this tick (bootstrapped to 0 before the
first tick), the integrator state. Each tick the compensator
(`src/examples/simple-feedback.rs` 88-100) consumes the constant source
value 1 and the integrator output `y` and emits `u = 1 - y`; the
integrator consumes `u` and then writes its next output. Returns the
logged compensator outputs. -/
def feedbackLog : ℕ → ℚ → Integrator → List ℚ
  | 0, _, _ => []
  | k + 1, y, it =>
    let u := 1 - y
    let it2 := it.read [u]
    let y2 := (it2.write.getD []).headI
    u :: feedbackLog k y2 it2

/-- The C8 feedback loop with the example's own `Integrator`
(`src/examples/simple-feedback.rs` 101-125): `consume` adds
`data[0] * gain` to its memory and `produce` returns the memory.
Arguments: remaining ticks, integrator output received this tick, the
memory. -/
def feedbackLogEx : ℕ → ℚ → ℚ → List ℚ
  | 0, _, _ => []
  | k + 1, y, m =>
    let u := 1 - y
    let m2 := m + u * (1 / 2)
    u :: feedbackLogEx k m2 m2

/-- C8 counterexample: with the library `Integrator` (gain 1/2, zero
point 0, output bootstrapped to 0) the logged compensator outputs over
10 ticks are not the halving sequence the claim states. -/
theorem feedback_halving_counterexample :
    feedbackLog 10 0 integC8 ≠
      [1, 1 / 2, 1 / 4, 1 / 8, 1 / 16, 1 / 32, 1 / 64, 1 / 128, 1 / 256,
        1 / 512] := by
  simp only [feedbackLog, integC8, Integrator.read, Integrator.write,
    integReadZip, integWriteZip, Option.getD, List.headI]
  norm_num

/-- C8 amended: in the feedback loop where the compensator emits
`u = source - (integrator output)`, the source is the constant 1 and the
integrator output is bootstrapped to 0, the library `Integrator` with
gain 1/2 and zero point 0 subtracts `gain * u` from its memory, so the
loop is divergent positive feedback: the logged compensator outputs over
10 ticks are 1, 3/2, 9/4, ..., each value 3/2 times the previous one.
The halving sequence 1, 1/2, 1/4, ... the claim (and the spec scenario)
states is produced by the example's own `Integrator`, whose consume adds
`gain * u` to its memory. -/
theorem feedback_compensator_outputs :
    feedbackLog 10 0 integC8 =
      [1, 3 / 2, 9 / 4, 27 / 8, 81 / 16, 243 / 32, 729 / 64, 2187 / 128,
        6561 / 256, 19683 / 512]
    ∧ feedbackLogEx 10 0 0 =
      [1, 1 / 2, 1 / 4, 1 / 8, 1 / 16, 1 / 32, 1 / 64, 1 / 128, 1 / 256,
        1 / 512] := by
  constructor
  · simp only [feedbackLog, integC8, Integrator.read, Integrator.write,
      integReadZip, integWriteZip, Option.getD, List.headI]
    norm_num
  · simp only [feedbackLogEx]
    norm_num

end DosActors
